import Mathlib

/-!
Verification of the Page Color Extractor (`extract_colors.py`).

The script drives a headless browser to a fixed URL, evaluates three in-page
JavaScript queries (custom-property scan, stylesheet-rule scan, element-color
scan), filters the stylesheet rules by keyword on the Python side, writes the
aggregate to `animate_ui_colors.json` and captures a screenshot, with a
top-level try/except/finally around the whole run.

This file gives a shallow embedding of that program: strings are `List Char`,
each in-page query is a pure function of a page model, fallible steps return
`Except`, and `main`'s control flow is an explicit interpreter producing a
trace.  JavaScript/DOM facts the code relies on (which methods a `NodeList`
has, which identifiers are bound in a page's global scope) are embedded as
explicit tables so that the two scripting-language slips in the source
(`elems.slice(0, 5)` on a NodeList, `str(e)` inside a JS catch block) play out
exactly as a browser would execute them.
-/

/-! ## Strings

Python/JS strings are modelled as lists of unicode scalar values. -/

abbrev Str := List Char

/-- Python `pat in s` / JS `s.includes(pat)`: substring containment. -/
def strContains (s pat : Str) : Bool :=
  (List.range (s.length + 1)).any (fun i => pat.isPrefixOf (s.drop i))

/-- Python `s.lower()`, modelled per character on the basic-latin range
(the full Unicode case mapping agrees with this on all ASCII text; exotic
mappings such as U+212A are outside the modelled character range). -/
def lowerStr (s : Str) : Str := s.map Char.toLower

/-- JS `s.startsWith(pat)`. -/
def strStartsWith (pat s : Str) : Bool := pat.isPrefixOf s

/-- The WhiteSpace/LineTerminator characters stripped by JS `String.prototype.trim`. -/
def isJsTrimChar (c : Char) : Bool :=
  c = ' ' || c = '\t' || c = '\n' || c = '\r' || c = '\x0b' || c = '\x0c' ||
  c = '\u00A0' || c = '\u2028' || c = '\u2029' || c = '\uFEFF'

/-- JS `s.trim()`. -/
def trimStr (s : Str) : Str :=
  ((s.dropWhile isJsTrimChar).reverse.dropWhile isJsTrimChar).reverse

/-- First-match association-list lookup (JS object property read in insertion
order, Python dict lookup). -/
def lookupA {β : Type} : List (Str × β) → Str → Option β
  | [], _ => Option.none
  | (k, v) :: rest, key => if k = key then some v else lookupA rest key

/-! ## Custom-property scan

First `page.evaluate`: walk the enumeration of
`getComputedStyle(document.documentElement)`; for each property whose name
starts with `--` and contains `color`, `theme` or `hue`, record the trimmed
value under the name. -/

structure StyleProp where
  name : Str
  value : Str
deriving DecidableEq

/-- The keyword part of the filter: `prop.includes('color') ||
prop.includes('theme') || prop.includes('hue')` (case-sensitive). -/
def cssNameHasThemeKeyword (name : Str) : Bool :=
  strContains name ("color".toList) || strContains name ("theme".toList) ||
    strContains name ("hue".toList)

/-- Full filter of the JS loop: `prop.startsWith('--') && (…keywords…)`. -/
def cssVarNameKeep (name : Str) : Bool :=
  strStartsWith ("--".toList) name && cssNameHasThemeKeyword name

/-- The `vars` object built by the first evaluate, as an association list in
insertion order: `vars[prop] = computedStyle.getPropertyValue(prop).trim()`. -/
def cssVariables (props : List StyleProp) : List (Str × Str) :=
  (props.filter (fun p => cssVarNameKeep p.name)).map (fun p => (p.name, trimStr p.value))

/-! ## Stylesheet scan

Second `page.evaluate`: for each sheet of `document.styleSheets`, try to read
`sheet.cssRules` and push `{href: sheet.href, rules: […cssText]}`; the catch
block pushes `{href: sheet.href, error: str(e)}` — but `str` is Python's
builtin, not a JavaScript binding, so evaluating `str(e)` in the page raises a
ReferenceError that propagates out of the whole evaluate call. -/

/-- A stylesheet as the document exposes it: its `href` (null for inline
`<style>` sheets) and the outcome of reading `sheet.cssRules` (accessing the
rule list of a cross-origin sheet throws). -/
structure SheetSrc where
  href : Option Str
  cssRules : Except Str (List Str)

/-- A record pushed onto the `sheets` array by the JS loop. -/
inductive SheetRec where
  | ok (href : Option Str) (rules : List Str)
  | failed (href : Option Str) (error : Str)
deriving DecidableEq

/-- Identifiers bound in the scope of the evaluated page function: the page
globals used by the snippets plus standard JS library globals.  `str` is not
among them (it is Python's builtin; no browser defines it). -/
def browserGlobals : List Str :=
  ["document".toList, "window".toList, "getComputedStyle".toList,
   "Array".toList, "Object".toList, "JSON".toList, "Math".toList,
   "String".toList, "Number".toList, "Boolean".toList]

/-- JS identifier resolution in the evaluated function's scope. -/
def jsLookupGlobal (name : Str) : Option Unit :=
  if browserGlobals.contains name then some () else Option.none

/-- One iteration of the `for (let sheet of document.styleSheets)` loop body.
On a successful `cssRules` read it yields the `{href, rules}` record.  On a
failed read the catch block evaluates `str(e)`: the identifier `str` is
resolved in the page scope; since it is unbound, the call raises
`ReferenceError: str is not defined`, which escapes the catch block. -/
def readSheet (s : SheetSrc) : Except Str SheetRec :=
  match s.cssRules with
  | Except.ok rules => Except.ok (SheetRec.ok s.href rules)
  | Except.error e =>
    match jsLookupGlobal ("str".toList) with
    | some _ => Except.ok (SheetRec.failed s.href e)
    | Option.none => Except.error ("ReferenceError: str is not defined".toList)

/-- The whole second evaluate: the loop stops at the first iteration that
throws, and the exception surfaces as a failure of `page.evaluate`. -/
def stylesheetScan (doc : List SheetSrc) : Except Str (List SheetRec) :=
  match doc with
  | [] => Except.ok []
  | s :: rest =>
    match readSheet s with
    | Except.error e => Except.error e
    | Except.ok r =>
      match stylesheetScan rest with
      | Except.error e => Except.error e
      | Except.ok rs => Except.ok (r :: rs)

/-! ## Python-side rule filter

`for sheet in stylesheets: if 'rules' in sheet: for rule in sheet['rules']:
if any(keyword in rule.lower() …): color_rules.append({'source':
sheet.get('href', 'inline'), 'rule': rule})`.

The sheet records cross the evaluate boundary as Python dicts; the dict view
matters because `sheet.get('href', 'inline')` falls back to `'inline'` only
when the `'href'` key is absent — and the JS loop always stores an `href` key
(with value `null`, i.e. Python `None`, for inline sheets). -/

/-- A Python value as it appears in this data (None / str / list-of-str). -/
inductive PyVal where
  | pynone
  | pystr (s : Str)
  | pystrList (xs : List Str)
deriving DecidableEq

/-- JS `null` arrives in Python as `None`; a string stays a string. -/
def pyOfHref : Option Str → PyVal
  | Option.none => PyVal.pynone
  | some u => PyVal.pystr u

/-- The Python dict for one sheet record, keys in JS insertion order. -/
def sheetDict : SheetRec → List (Str × PyVal)
  | SheetRec.ok href rules =>
    [("href".toList, pyOfHref href), ("rules".toList, PyVal.pystrList rules)]
  | SheetRec.failed href err =>
    [("href".toList, pyOfHref href), ("error".toList, PyVal.pystr err)]

/-- Python `d.get(key, default)`: the default applies only when the key is
missing. -/
def pyDictGet (d : List (Str × PyVal)) (key : Str) (default : PyVal) : PyVal :=
  match lookupA d key with
  | some v => v
  | Option.none => default

/-- Python `key in d`. -/
def pyDictHasKey (d : List (Str × PyVal)) (key : Str) : Bool :=
  (lookupA d key).isSome

/-- `color_keywords` from the source. -/
def colorKeywords : List Str :=
  ["color".toList, "background".toList, "border".toList, "rgb".toList,
   "hsl".toList, "hsv".toList, "#".toList, "var(--".toList]

/-- `any(keyword in rule.lower() for keyword in color_keywords)`. -/
def ruleHasColorKeyword (rule : Str) : Bool :=
  colorKeywords.any (fun k => strContains (lowerStr rule) k)

/-- One entry appended to `color_rules`. -/
structure ColorRule where
  source : PyVal
  rule : Str
deriving DecidableEq

/-- The inner loop over one sheet dict: guarded by `'rules' in sheet`, keeps
keyword rules in order, and tags each with `sheet.get('href', 'inline')`. -/
def colorRulesOfSheet (s : SheetRec) : List ColorRule :=
  let d := sheetDict s
  if pyDictHasKey d ("rules".toList) then
    match pyDictGet d ("rules".toList) PyVal.pynone with
    | PyVal.pystrList rules =>
      (rules.filter ruleHasColorKeyword).map
        (fun r => ColorRule.mk (pyDictGet d ("href".toList) (PyVal.pystr ("inline".toList))) r)
    | _ => []
  else []

/-- The full `color_rules` list (outer loop = sheet order, inner = rule order). -/
def colorRules (recs : List SheetRec) : List ColorRule :=
  (recs.map colorRulesOfSheet).flatten

/-- The rule texts a readable sheet would contribute. -/
def srcRules (s : SheetSrc) : List Str :=
  match s.cssRules with
  | Except.ok r => r
  | Except.error _ => []

/-! ## Element-color scan

Third `page.evaluate`: for each selector of a fixed list, query matching
elements and sample the first five.  The code calls `elems.slice(0, 5)` on the
`NodeList` returned by `querySelectorAll`; `slice` is not a NodeList member,
so the call is a TypeError — swallowed by the per-selector catch (`// Ignore
selector errors`). -/

structure DomElement where
  tagName : Str
  className : Str
  color : Str
  backgroundColor : Str
  borderColor : Str
  textContent : Option Str
deriving DecidableEq

structure ElementColor where
  selector : Str
  tagName : Str
  className : Str
  color : Str
  backgroundColor : Str
  borderColor : Str
  text : Str
deriving DecidableEq

/-- The fixed `selectors` array from the source. -/
def selectorList : List Str :=
  ["button".toList, "a".toList, ".btn".toList, "[class*=\"color\"]".toList,
   "[class*=\"theme\"]".toList, "body".toList, "html".toList]

/-- Members of the DOM `NodeList` interface (WHATWG DOM standard):
`item`, `length`, `entries`, `forEach`, `keys`, `values`.  There is no
`slice`. -/
def nodeListMembers : List Str :=
  ["item".toList, "length".toList, "entries".toList, "forEach".toList,
   "keys".toList, "values".toList]

/-- The record pushed for one sampled element: resolved colors plus
`el.textContent?.slice(0, 50) || ''`. -/
def sampleOfElement (sel : Str) (el : DomElement) : ElementColor :=
  { selector := sel, tagName := el.tagName, className := el.className,
    color := el.color, backgroundColor := el.backgroundColor,
    borderColor := el.borderColor,
    text := match el.textContent with
            | some t => t.take 50
            | Option.none => [] }

/-- One iteration of the selector loop.  `qsa` is `document.querySelectorAll`,
which throws on a syntactically invalid selector.  On success the code
evaluates `elems.slice(0, 5)`: a member lookup of `slice` on the NodeList; the
member is absent, so the call is a TypeError caught by the same per-selector
catch, and the selector contributes nothing. -/
def scanSelector (qsa : Str → Except Str (List DomElement)) (sel : Str) :
    List ElementColor :=
  match qsa sel with
  | Except.error _ => []
  | Except.ok elems =>
    if nodeListMembers.contains ("slice".toList) then
      (elems.take 5).map (sampleOfElement sel)
    else []

/-- The whole third evaluate: the `elements` array after the selector loop. -/
def elementScan (qsa : Str → Except Str (List DomElement)) : List ElementColor :=
  (selectorList.map (scanSelector qsa)).flatten

/-! ## The aggregate extraction -/

/-- The in-page state the three queries read. -/
structure PageModel where
  styleProps : List StyleProp
  sheets : List SheetSrc
  qsa : Str → Except Str (List DomElement)

/-- `colors_info`, the dict returned by `extract_colors_from_page`. -/
structure ColorsInfo where
  css_variables : List (Str × Str)
  color_rules : List ColorRule
  element_colors : List ElementColor

/-- `extract_colors_from_page(page)`: the three evaluates in order.  The first
and third queries cannot throw (the third swallows its per-item errors); the
second propagates the ReferenceError from its broken catch block, which makes
the whole extraction fail. -/
def extractColorsFromPage (page : PageModel) : Except Str ColorsInfo :=
  match stylesheetScan page.sheets with
  | Except.error e => Except.error e
  | Except.ok recs =>
    Except.ok { css_variables := cssVariables page.styleProps,
                color_rules := colorRules recs,
                element_colors := elementScan page.qsa }

/-! ## The `main` run

`main` launches one browser, opens one page, and wraps one navigation plus the
extraction, the JSON write, the console summary and the success screenshot in
`try … except Exception … finally: browser.close()`.  The except handler
prints the error and attempts a best-effort screenshot to the error path, with
its own bare `except: pass`.  We interpret this control flow over an
environment fixing the outcome of every fallible step, and record the
externally observable events in a trace. -/

/-- Outcomes of the fallible steps of one run, in program order:
navigation, the page queries, `open('animate_ui_colors.json', 'w')`,
`json.dump`, the summary prints, the success screenshot, and the error-path
screenshot. -/
structure RunEnv where
  page : PageModel
  gotoRes : Except Str Unit
  openRes : Except Str Unit
  dumpRes : Except Str Unit
  summaryRes : Except Str Unit
  shotRes : Except Str Unit
  errShotRes : Except Str Unit

/-- What the `try` block did before returning or raising. -/
structure TryOutcome where
  jsonCreated : Bool
  jsonComplete : Bool
  successShotSaved : Bool
  exc : Option Str
deriving DecidableEq

/-- Externally observable summary of a whole run. -/
structure RunTrace where
  gotoAttempts : Nat
  jsonCreated : Bool
  jsonComplete : Bool
  successShotSaved : Bool
  errorLogged : Bool
  errShotAttempted : Bool
  errShotSaved : Bool
  browserCloses : Nat
  uncaught : Option Str

/-- The body of the `try` block, step by step.  `open(…, 'w')` creates (or
truncates) the output file; if `json.dump` then raises, the file exists with
partial contents; the screenshot runs only after a complete write.  The first
raising step aborts the rest of the block. -/
def tryBody (env : RunEnv) : TryOutcome :=
  match env.gotoRes with
  | Except.error e => ⟨false, false, false, some e⟩
  | Except.ok _ =>
    match extractColorsFromPage env.page with
    | Except.error e => ⟨false, false, false, some e⟩
    | Except.ok _ =>
      match env.openRes with
      | Except.error e => ⟨false, false, false, some e⟩
      | Except.ok _ =>
        match env.dumpRes with
        | Except.error e => ⟨true, false, false, some e⟩
        | Except.ok _ =>
          match env.summaryRes with
          | Except.error e => ⟨true, true, false, some e⟩
          | Except.ok _ =>
            match env.shotRes with
            | Except.error e => ⟨true, true, false, some e⟩
            | Except.ok _ => ⟨true, true, true, Option.none⟩

/-- The whole `main` run.  `goto` is attempted exactly once (no retry).  If
the try block raised, the handler logs the error and attempts the error
screenshot, swallowing any secondary failure with its bare `except: pass`;
nothing propagates out of `main`.  The `finally` clause closes the browser on
both paths, exactly once. -/
def runMain (env : RunEnv) : RunTrace :=
  let t := tryBody env
  match t.exc with
  | Option.none =>
    { gotoAttempts := 1, jsonCreated := t.jsonCreated,
      jsonComplete := t.jsonComplete, successShotSaved := t.successShotSaved,
      errorLogged := false, errShotAttempted := false, errShotSaved := false,
      browserCloses := 1, uncaught := Option.none }
  | some _ =>
    { gotoAttempts := 1, jsonCreated := t.jsonCreated,
      jsonComplete := t.jsonComplete, successShotSaved := t.successShotSaved,
      errorLogged := true, errShotAttempted := true,
      errShotSaved := (match env.errShotRes with
                       | Except.ok _ => true
                       | Except.error _ => false),
      browserCloses := 1, uncaught := Option.none }

/-! ## JSON serialization

`json.dump(colors_info, f, indent=2)` writes the aggregate with Python's
default encoder (`ensure_ascii=True`, 2-space indent, `', '`/`': '`
separators adjusted for indent), and `json.load` parses it back.  The values
occurring here are objects, arrays, strings and `null`, so the JSON model
covers exactly those.  Strings are escaped the way Python's encoder does with
`ensure_ascii=True`: `\"`, `\\`, `\b`, `\f`, `\n`, `\r`, `\t`, `\uXXXX` for
every other character outside `0x20`–`0x7E` (with a UTF-16 surrogate pair for
code points above `0xFFFF`), and the parser inverts the escapes the way
Python's scanner does. -/

mutual
inductive JVal where
  | jnull : JVal
  | jstr : Str → JVal
  | jarr : JArr → JVal
  | jobj : JObj → JVal
inductive JArr where
  | anil : JArr
  | acons : JVal → JArr → JArr
inductive JObj where
  | onil : JObj
  | ocons : Str → JVal → JObj → JObj
end

def jarrOfList : List JVal → JArr
  | [] => JArr.anil
  | v :: rest => JArr.acons v (jarrOfList rest)

def jobjOfList : List (Str × JVal) → JObj
  | [] => JObj.onil
  | (k, v) :: rest => JObj.ocons k v (jobjOfList rest)

/-- The keys of a top-level JSON object. -/
def jobjKeys : JObj → List Str
  | JObj.onil => []
  | JObj.ocons k _ rest => k :: jobjKeys rest

def topLevelKeys : JVal → List Str
  | JVal.jobj o => jobjKeys o
  | _ => []

/-- Lowercase hex digit, as Python's `'\x7b0:04x\x7d'.format` emits. -/
def hexDigit (n : Nat) : Char :=
  if n < 10 then Char.ofNat (48 + n) else Char.ofNat (87 + n)

/-- Four lowercase hex digits of a number below `0x10000`. -/
def hex4 (n : Nat) : Str :=
  [hexDigit (n / 4096 % 16), hexDigit (n / 256 % 16),
   hexDigit (n / 16 % 16), hexDigit (n % 16)]

/-- Python's `ensure_ascii` escape of one character. -/
def escChar (c : Char) : Str :=
  if c = '"' then ['\\', '"']
  else if c = '\\' then ['\\', '\\']
  else if c = '\n' then ['\\', 'n']
  else if c = '\r' then ['\\', 'r']
  else if c = '\t' then ['\\', 't']
  else if c = '\x08' then ['\\', 'b']
  else if c = '\x0c' then ['\\', 'f']
  else if c.toNat < 0x20 ∨ 0x7E < c.toNat then
    if c.toNat < 0x10000 then
      '\\' :: 'u' :: hex4 c.toNat
    else
      ('\\' :: 'u' :: hex4 (0xD800 + (c.toNat - 0x10000) / 0x400)) ++
      ('\\' :: 'u' :: hex4 (0xDC00 + (c.toNat - 0x10000) % 0x400))
  else [c]

def escString (s : Str) : Str := (s.map escChar).flatten

def renderString (s : Str) : Str := '"' :: (escString s ++ ['"'])

def spacesN (n : Nat) : Str := List.replicate n ' '

mutual
/-- Rendering of one value at indentation level `ind`, matching
`json.dump(…, indent=2)`: children are indented two deeper, the closing
bracket sits at the parent's indent, and empty containers collapse. -/
def renderVal (ind : Nat) : JVal → Str
  | JVal.jnull => 'n' :: ['u', 'l', 'l']
  | JVal.jstr s => renderString s
  | JVal.jarr JArr.anil => ['[', ']']
  | JVal.jarr (JArr.acons v t) =>
    '[' :: '\n' :: (spacesN (ind + 2) ++ renderVal (ind + 2) v ++
      renderArrTail (ind + 2) t ++ '\n' :: (spacesN ind ++ [']']))
  | JVal.jobj JObj.onil => ['\x7b', '\x7d']
  | JVal.jobj (JObj.ocons k v t) =>
    '\x7b' :: '\n' :: (spacesN (ind + 2) ++ renderString k ++ ':' :: ' ' ::
      (renderVal (ind + 2) v ++ renderObjTail (ind + 2) t ++
        '\n' :: (spacesN ind ++ ['\x7d'])))

def renderArrTail (ind : Nat) : JArr → Str
  | JArr.anil => []
  | JArr.acons v t =>
    ',' :: '\n' :: (spacesN ind ++ renderVal ind v ++ renderArrTail ind t)

def renderObjTail (ind : Nat) : JObj → Str
  | JObj.onil => []
  | JObj.ocons k v t =>
    ',' :: '\n' :: (spacesN ind ++ renderString k ++ ':' :: ' ' ::
      (renderVal ind v ++ renderObjTail ind t))
end

/-- The whitespace `json.load`'s scanner skips between tokens. -/
def isJsonWs (c : Char) : Bool :=
  c = ' ' || c = '\t' || c = '\n' || c = '\r'

def skipWs : Str → Str
  | [] => []
  | c :: rest => if isJsonWs c then skipWs rest else c :: rest

/-- Value of one hex digit (the scanner accepts both cases). -/
def hexVal (c : Char) : Option Nat :=
  if 48 ≤ c.toNat ∧ c.toNat ≤ 57 then some (c.toNat - 48)
  else if 97 ≤ c.toNat ∧ c.toNat ≤ 102 then some (c.toNat - 87)
  else if 65 ≤ c.toNat ∧ c.toNat ≤ 70 then some (c.toNat - 55)
  else Option.none

def parseHex4 : Str → Option (Nat × Str)
  | a :: b :: c :: d :: rest =>
    match hexVal a, hexVal b, hexVal c, hexVal d with
    | some x, some y, some z, some w => some (4096 * x + 256 * y + 16 * z + w, rest)
    | _, _, _, _ => Option.none
  | _ => Option.none

/-- One backslash escape (the backslash already consumed).  `\uXXXX` in the
high-surrogate range must be followed by a low surrogate and the pair is
combined, as Python's scanner does; a lone surrogate has no counterpart among
unicode scalar values, so the model rejects it (the encoder never emits one). -/
def parseEscape : Str → Option (Char × Str)
  | [] => Option.none
  | c :: rest =>
    if c = '"' then some ('"', rest)
    else if c = '\\' then some ('\\', rest)
    else if c = '/' then some ('/', rest)
    else if c = 'b' then some ('\x08', rest)
    else if c = 'f' then some ('\x0c', rest)
    else if c = 'n' then some ('\n', rest)
    else if c = 'r' then some ('\r', rest)
    else if c = 't' then some ('\t', rest)
    else if c = 'u' then
      match parseHex4 rest with
      | Option.none => Option.none
      | some (n, rest1) =>
        if 0xD800 ≤ n ∧ n ≤ 0xDBFF then
          match rest1 with
          | b1 :: b2 :: rest2 =>
            if b1 = '\\' ∧ b2 = 'u' then
              match parseHex4 rest2 with
              | some (m, rest3) =>
                if 0xDC00 ≤ m ∧ m ≤ 0xDFFF then
                  some (Char.ofNat (0x10000 + (n - 0xD800) * 0x400 + (m - 0xDC00)), rest3)
                else Option.none
              | Option.none => Option.none
            else Option.none
          | _ => Option.none
        else if 0xDC00 ≤ n ∧ n ≤ 0xDFFF then Option.none
        else some (Char.ofNat n, rest1)
    else Option.none

/-- The scanner's string body (opening quote already consumed): raw
characters up to the closing quote, escapes decoded, unescaped control
characters rejected. -/
def parseStringBody : Nat → Str → Option (Str × Str)
  | 0, _ => Option.none
  | _ + 1, [] => Option.none
  | fuel + 1, c :: rest =>
    if c = '"' then some ([], rest)
    else if c = '\\' then
      match parseEscape rest with
      | some (d, rest1) =>
        match parseStringBody fuel rest1 with
        | some (s, rest2) => some (d :: s, rest2)
        | Option.none => Option.none
      | Option.none => Option.none
    else if c.toNat < 0x20 then Option.none
    else
      match parseStringBody fuel rest with
      | some (s, rest1) => some (c :: s, rest1)
      | Option.none => Option.none

mutual
/-- Recursive-descent value parser, fuelled; on the JSON subset the encoder
emits (objects, arrays, strings, null) it behaves as Python's scanner. -/
def parseVal : Nat → Str → Option (JVal × Str)
  | 0, _ => Option.none
  | fuel + 1, input =>
    match skipWs input with
    | [] => Option.none
    | c :: rest =>
      if c = 'n' then
        match rest with
        | u :: l1 :: l2 :: r =>
          if u = 'u' ∧ l1 = 'l' ∧ l2 = 'l' then some (JVal.jnull, r) else Option.none
        | _ => Option.none
      else if c = '"' then
        match parseStringBody fuel rest with
        | some (s, r) => some (JVal.jstr s, r)
        | Option.none => Option.none
      else if c = '[' then parseArrBody fuel (skipWs rest)
      else if c = '\x7b' then parseObjBody fuel (skipWs rest)
      else Option.none

/-- The body of an array once `[` is consumed and whitespace skipped. -/
def parseArrBody : Nat → Str → Option (JVal × Str)
  | _, [] => Option.none
  | fuel, d :: r =>
    if d = ']' then some (JVal.jarr JArr.anil, r)
    else
      match parseVal fuel (d :: r) with
      | some (v, r1) =>
        match parseArrTail fuel r1 with
        | some (t, r2) => some (JVal.jarr (JArr.acons v t), r2)
        | Option.none => Option.none
      | Option.none => Option.none

/-- The body of an object once the opening brace is consumed and whitespace
skipped. -/
def parseObjBody : Nat → Str → Option (JVal × Str)
  | _, [] => Option.none
  | fuel, d :: r =>
    if d = '\x7d' then some (JVal.jobj JObj.onil, r)
    else
      match parseMember fuel (d :: r) with
      | some (kv, r1) =>
        match parseObjTail fuel r1 with
        | some (t, r2) => some (JVal.jobj (JObj.ocons kv.1 kv.2 t), r2)
        | Option.none => Option.none
      | Option.none => Option.none

/-- One `"key": value` member. -/
def parseMember : Nat → Str → Option ((Str × JVal) × Str)
  | 0, _ => Option.none
  | fuel + 1, input =>
    match skipWs input with
    | [] => Option.none
    | q :: rest =>
      if q = '"' then
        match parseStringBody fuel rest with
        | some (k, r1) =>
          match skipWs r1 with
          | [] => Option.none
          | col :: r2 =>
            if col = ':' then
              match parseVal fuel r2 with
              | some (v, r3) => some ((k, v), r3)
              | Option.none => Option.none
            else Option.none
        | Option.none => Option.none
      else Option.none

/-- Elements after the first one, up to `]`. -/
def parseArrTail : Nat → Str → Option (JArr × Str)
  | 0, _ => Option.none
  | fuel + 1, input =>
    match skipWs input with
    | [] => Option.none
    | d :: r =>
      if d = ',' then
        match parseVal fuel r with
        | some (v, r1) =>
          match parseArrTail fuel r1 with
          | some (t, r2) => some (JArr.acons v t, r2)
          | Option.none => Option.none
        | Option.none => Option.none
      else if d = ']' then some (JArr.anil, r)
      else Option.none

/-- Members after the first one, up to the closing brace. -/
def parseObjTail : Nat → Str → Option (JObj × Str)
  | 0, _ => Option.none
  | fuel + 1, input =>
    match skipWs input with
    | [] => Option.none
    | d :: r =>
      if d = ',' then
        match parseMember fuel r with
        | some (kv, r1) =>
          match parseObjTail fuel r1 with
          | some (t, r2) => some (JObj.ocons kv.1 kv.2 t, r2)
          | Option.none => Option.none
        | Option.none => Option.none
      else if d = '\x7d' then some (JObj.onil, r)
      else Option.none
end

mutual
/-- Fuel sufficient to parse a rendered value. -/
def sizeV : JVal → Nat
  | JVal.jnull => 1
  | JVal.jstr s => s.length + 2
  | JVal.jarr a => sizeA a + 2
  | JVal.jobj o => sizeO o + 2
def sizeA : JArr → Nat
  | JArr.anil => 1
  | JArr.acons v t => sizeV v + sizeA t + 1
def sizeO : JObj → Nat
  | JObj.onil => 1
  | JObj.ocons k v t => k.length + sizeV v + sizeO t + 2
end

/-! ## Encoding the extraction result as JSON

`json.dump` walks the Python value: dicts become objects in insertion order,
lists become arrays, strings become JSON strings, `None` becomes `null`.
`colors_info` is built with keys `css_variables`, `color_rules`,
`element_colors` in that order; each rule dict has keys `source`, `rule`;
each element dict has the seven keys in the order the JS pushed them. -/

def encodeSource : PyVal → JVal
  | PyVal.pynone => JVal.jnull
  | PyVal.pystr s => JVal.jstr s
  | PyVal.pystrList xs => JVal.jarr (jarrOfList (xs.map JVal.jstr))

def encodeColorRule (r : ColorRule) : JVal :=
  JVal.jobj (JObj.ocons ("source".toList) (encodeSource r.source)
    (JObj.ocons ("rule".toList) (JVal.jstr r.rule) JObj.onil))

def encodeElementColor (e : ElementColor) : JVal :=
  JVal.jobj (JObj.ocons ("selector".toList) (JVal.jstr e.selector)
    (JObj.ocons ("tagName".toList) (JVal.jstr e.tagName)
    (JObj.ocons ("className".toList) (JVal.jstr e.className)
    (JObj.ocons ("color".toList) (JVal.jstr e.color)
    (JObj.ocons ("backgroundColor".toList) (JVal.jstr e.backgroundColor)
    (JObj.ocons ("borderColor".toList) (JVal.jstr e.borderColor)
    (JObj.ocons ("text".toList) (JVal.jstr e.text) JObj.onil)))))))

def encodeVars (vars : List (Str × Str)) : JVal :=
  JVal.jobj (jobjOfList (vars.map (fun kv => (kv.1, JVal.jstr kv.2))))

def encodeResult (c : ColorsInfo) : JVal :=
  JVal.jobj (JObj.ocons ("css_variables".toList) (encodeVars c.css_variables)
    (JObj.ocons ("color_rules".toList)
      (JVal.jarr (jarrOfList (c.color_rules.map encodeColorRule)))
    (JObj.ocons ("element_colors".toList)
      (JVal.jarr (jarrOfList (c.element_colors.map encodeElementColor)))
      JObj.onil)))

/-- The exact text `json.dump(colors_info, f, indent=2)` writes to
`animate_ui_colors.json`. -/
def writtenJson (c : ColorsInfo) : Str := renderVal 0 (encodeResult c)

/-! ## Decoding a parsed JSON value back to an extraction result -/

def decodeStrListArr : JArr → Option (List Str)
  | JArr.anil => some []
  | JArr.acons (JVal.jstr s) t =>
    match decodeStrListArr t with
    | some xs => some (s :: xs)
    | Option.none => Option.none
  | JArr.acons _ _ => Option.none

def decodeSource : JVal → Option PyVal
  | JVal.jnull => some PyVal.pynone
  | JVal.jstr s => some (PyVal.pystr s)
  | JVal.jarr a =>
    match decodeStrListArr a with
    | some xs => some (PyVal.pystrList xs)
    | Option.none => Option.none
  | JVal.jobj _ => Option.none

def decodeColorRule : JVal → Option ColorRule
  | JVal.jobj (JObj.ocons k1 v1 (JObj.ocons k2 (JVal.jstr r) JObj.onil)) =>
    if k1 = "source".toList ∧ k2 = "rule".toList then
      match decodeSource v1 with
      | some src => some (ColorRule.mk src r)
      | Option.none => Option.none
    else Option.none
  | _ => Option.none

def decodeColorRules : JArr → Option (List ColorRule)
  | JArr.anil => some []
  | JArr.acons v t =>
    match decodeColorRule v, decodeColorRules t with
    | some r, some rs => some (r :: rs)
    | _, _ => Option.none

def decodeElementColor : JVal → Option ElementColor
  | JVal.jobj (JObj.ocons k1 (JVal.jstr sel)
      (JObj.ocons k2 (JVal.jstr tag)
      (JObj.ocons k3 (JVal.jstr cls)
      (JObj.ocons k4 (JVal.jstr col)
      (JObj.ocons k5 (JVal.jstr bg)
      (JObj.ocons k6 (JVal.jstr bd)
      (JObj.ocons k7 (JVal.jstr txt) JObj.onil))))))) =>
    if k1 = "selector".toList ∧ k2 = "tagName".toList ∧ k3 = "className".toList ∧
       k4 = "color".toList ∧ k5 = "backgroundColor".toList ∧
       k6 = "borderColor".toList ∧ k7 = "text".toList then
      some (ElementColor.mk sel tag cls col bg bd txt)
    else Option.none
  | _ => Option.none

def decodeElementColors : JArr → Option (List ElementColor)
  | JArr.anil => some []
  | JArr.acons v t =>
    match decodeElementColor v, decodeElementColors t with
    | some e, some es => some (e :: es)
    | _, _ => Option.none

def decodeVars : JObj → Option (List (Str × Str))
  | JObj.onil => some []
  | JObj.ocons k (JVal.jstr v) t =>
    match decodeVars t with
    | some kvs => some ((k, v) :: kvs)
    | Option.none => Option.none
  | JObj.ocons _ _ _ => Option.none

def decodeResult : JVal → Option ColorsInfo
  | JVal.jobj (JObj.ocons k1 (JVal.jobj vo)
      (JObj.ocons k2 (JVal.jarr ra)
      (JObj.ocons k3 (JVal.jarr ea) JObj.onil))) =>
    if k1 = "css_variables".toList ∧ k2 = "color_rules".toList ∧
       k3 = "element_colors".toList then
      match decodeVars vo, decodeColorRules ra, decodeElementColors ea with
      | some vars, some rules, some elems =>
        some (ColorsInfo.mk vars rules elems)
      | _, _, _ => Option.none
    else Option.none
  | _ => Option.none

/-! ## Concrete page data used to evaluate the model -/

/-- Two readable stylesheets: one external with two rules (one matching a
keyword), one inline with one matching rule. -/
def docTwoSheets : List SheetSrc :=
  [SheetSrc.mk (some ("https://animate-ui.com/app.css".toList))
     (Except.ok ["body color: red".toList, "main margin 0".toList]),
   SheetSrc.mk Option.none
     (Except.ok ["a background: blue".toList])]

/-- A cross-origin stylesheet whose `cssRules` read throws. -/
def crossOriginSheet : SheetSrc :=
  SheetSrc.mk (some ("https://fonts.example/css2.css".toList))
    (Except.error ("SecurityError: cannot access rules".toList))

/-- A custom-property enumeration: two keyword names, one other. -/
def propsSample : List StyleProp :=
  [StyleProp.mk ("--primary-color".toList) (" #3b82f6 ".toList),
   StyleProp.mk ("--spacing".toList) ("4px".toList),
   StyleProp.mk ("--theme-dark".toList) ("1".toList)]

/-- A sampled button element. -/
def elemButton : DomElement :=
  { tagName := "BUTTON".toList, className := "btn primary".toList,
    color := "rgb(255, 255, 255)".toList,
    backgroundColor := "rgb(59, 130, 246)".toList,
    borderColor := "rgb(59, 130, 246)".toList,
    textContent := some ("Click me".toList) }

/-- A page on which `button` matches six elements and every other selector
matches none. -/
def qsaSixButtons : Str → Except Str (List DomElement) :=
  fun sel => if sel = "button".toList then Except.ok (List.replicate 6 elemButton)
             else Except.ok []

/-- A page on which the `.btn` query throws and every other selector matches
one button. -/
def qsaBtnThrows : Str → Except Str (List DomElement) :=
  fun sel => if sel = ".btn".toList then Except.error ("SyntaxError".toList)
             else Except.ok [elemButton]

/-- A page with no styles and no elements. -/
def emptyPage : PageModel :=
  { styleProps := [], sheets := [], qsa := fun _ => Except.ok [] }

/-- A run whose navigation fails. -/
def envGotoFails : RunEnv :=
  { page := emptyPage,
    gotoRes := Except.error ("net::ERR_NAME_NOT_RESOLVED".toList),
    openRes := Except.ok (), dumpRes := Except.ok (), summaryRes := Except.ok (),
    shotRes := Except.ok (), errShotRes := Except.ok () }

/-- A run that succeeds through the JSON write and then fails at the
full-page screenshot; the error screenshot succeeds. -/
def envShotFails : RunEnv :=
  { page := emptyPage,
    gotoRes := Except.ok (),
    openRes := Except.ok (), dumpRes := Except.ok (), summaryRes := Except.ok (),
    shotRes := Except.error ("Timeout 30000ms exceeded".toList),
    errShotRes := Except.ok () }

/-! # Theorems -/

/-! ## Rule-filter lemmas -/

/-- On a readable sheet record the Python inner loop reduces to
filter-then-tag: the `'rules' in sheet` guard holds, `sheet['rules']` is the
rule list, and `sheet.get('href', 'inline')` returns the stored href value
(the key is always present). -/
theorem colorRulesOfSheet_ok_eq (href : Option Str) (rules : List Str) :
    colorRulesOfSheet (SheetRec.ok href rules)
      = (rules.filter ruleHasColorKeyword).map
          (fun r => ColorRule.mk (pyOfHref href) r) := rfl

/-- A readable sheet passes `readSheet` unchanged. -/
theorem readSheet_ok (s : SheetSrc) (rules : List Str)
    (h : s.cssRules = Except.ok rules) :
    readSheet s = Except.ok (SheetRec.ok s.href rules) := by
  simp [readSheet, h]

/-- C1: for a document whose stylesheet reads all succeed, mapping each kept
entry to its rule text gives exactly the keyword-filtered concatenation of
all rules in encounter order (sheets in document order, rules in sheet
order), so `color_rules` has exactly as many entries as there are matching
rules, with each kept rule's text unchanged. -/
theorem c1_color_rules_keyword_filter (doc : List SheetSrc)
    (h : ∀ s ∈ doc, (s.cssRules).isOk = true) :
    ∃ recs, stylesheetScan doc = Except.ok recs ∧
      (colorRules recs).map ColorRule.rule
        = ((doc.map srcRules).flatten).filter ruleHasColorKeyword ∧
      (colorRules recs).length
        = (((doc.map srcRules).flatten).filter ruleHasColorKeyword).length := by
  induction doc with
  | nil => exact ⟨[], rfl, rfl, rfl⟩
  | cons s rest ih =>
    have hs := h s (List.mem_cons_self s rest)
    obtain ⟨rules, hr⟩ : ∃ r, s.cssRules = Except.ok r := by
      cases hcr : s.cssRules with
      | ok r => exact ⟨r, rfl⟩
      | error e => rw [hcr] at hs; simp [Except.isOk, Except.toBool] at hs
    obtain ⟨recs, hscan, hmap, _⟩ := ih (fun t ht => h t (List.mem_cons_of_mem _ ht))
    refine ⟨SheetRec.ok s.href rules :: recs, ?_, ?_, ?_⟩
    · simp [stylesheetScan, readSheet, hr, hscan]
    · simp only [colorRules, List.map_cons, List.flatten_cons, List.map_append,
        colorRulesOfSheet_ok_eq, srcRules, hr, List.filter_append, List.map_map]
      rw [show (ColorRule.rule ∘ fun r => ColorRule.mk (pyOfHref s.href) r) = id from rfl]
      rw [List.map_id]
      exact congrArg (rules.filter ruleHasColorKeyword ++ ·) hmap
    · rw [← List.length_map (colorRules (SheetRec.ok s.href rules :: recs)) ColorRule.rule]
      congr 1
      simp only [colorRules, List.map_cons, List.flatten_cons, List.map_append,
        colorRulesOfSheet_ok_eq, srcRules, hr, List.filter_append, List.map_map]
      rw [show (ColorRule.rule ∘ fun r => ColorRule.mk (pyOfHref s.href) r) = id from rfl]
      rw [List.map_id]
      exact congrArg (rules.filter ruleHasColorKeyword ++ ·) hmap

theorem c1_witness :
    (∀ s ∈ docTwoSheets, (s.cssRules).isOk = true) ∧
    (∃ recs, stylesheetScan docTwoSheets = Except.ok recs ∧
      (colorRules recs).map ColorRule.rule
        = ((docTwoSheets.map srcRules).flatten).filter ruleHasColorKeyword ∧
      (colorRules recs).length
        = (((docTwoSheets.map srcRules).flatten).filter ruleHasColorKeyword).length) := by
  have hp : ∀ s ∈ docTwoSheets, (s.cssRules).isOk = true := by
    intro s hs
    simp only [docTwoSheets, List.mem_cons, List.not_mem_nil, or_false] at hs
    rcases hs with h | h <;> subst h <;> rfl
  exact ⟨hp, c1_color_rules_keyword_filter docTwoSheets hp⟩

/-! ## Element-scan claims -/

/-- C2 (behavior of the code at the claim's input): on a page where `button`
matches six elements, the claim expects the first five to be sampled; but
`slice` is not a member of the DOM NodeList interface, so `elems.slice(0, 5)`
is a TypeError swallowed by the per-selector catch, and the scan records no
sample at all — for this selector or any other. -/
theorem c2_nodelist_slice_drops_all_samples :
    qsaSixButtons ("button".toList) = Except.ok (List.replicate 6 elemButton) ∧
    5 < (List.replicate 6 elemButton).length ∧
    nodeListMembers.contains ("slice".toList) = false ∧
    elementScan qsaSixButtons = [] := by
  refine ⟨rfl, by decide, rfl, ?_⟩
  decide

/-- C6: a selector whose query throws contributes zero entries, the failure
is swallowed (the scan still produces a value), and the selectors before and
after it in the fixed list are still processed: the result is exactly the
concatenation of their contributions. -/
theorem c6_invalid_selector_skipped (qsa : Str → Except Str (List DomElement))
    (pre post : List Str) (sel msg : Str)
    (hsel : selectorList = pre ++ sel :: post)
    (herr : qsa sel = Except.error msg) :
    scanSelector qsa sel = [] ∧
    elementScan qsa
      = (pre.map (scanSelector qsa)).flatten ++ (post.map (scanSelector qsa)).flatten := by
  constructor
  · simp [scanSelector, herr]
  · rw [elementScan, hsel]
    simp [scanSelector, herr]

theorem c6_witness :
    (selectorList
      = ["button".toList, "a".toList] ++ ".btn".toList ::
          ["[class*=\"color\"]".toList, "[class*=\"theme\"]".toList,
           "body".toList, "html".toList]) ∧
    qsaBtnThrows (".btn".toList) = Except.error ("SyntaxError".toList) ∧
    (scanSelector qsaBtnThrows (".btn".toList) = [] ∧
      elementScan qsaBtnThrows
        = ((["button".toList, "a".toList]).map (scanSelector qsaBtnThrows)).flatten ++
          ((["[class*=\"color\"]".toList, "[class*=\"theme\"]".toList,
             "body".toList, "html".toList]).map (scanSelector qsaBtnThrows)).flatten) := by
  refine ⟨rfl, rfl, ?_⟩
  exact c6_invalid_selector_skipped qsaBtnThrows
    ["button".toList, "a".toList]
    ["[class*=\"color\"]".toList, "[class*=\"theme\"]".toList,
     "body".toList, "html".toList]
    (".btn".toList) ("SyntaxError".toList) rfl rfl

/-! ## Stylesheet-failure and source-tag claims -/

/-- C3 (behavior of the code at the claim's input): a stylesheet whose
`cssRules` read throws does not contribute an error record and let the run
continue; instead the catch block's `str(e)` — Python syntax in a JavaScript
context — raises `ReferenceError: str is not defined`, which aborts the whole
stylesheet evaluate, and with it the extraction. -/
theorem c3_sheet_read_failure_aborts_whole_scan :
    jsLookupGlobal ("str".toList) = Option.none ∧
    stylesheetScan [crossOriginSheet]
      = Except.error ("ReferenceError: str is not defined".toList) ∧
    extractColorsFromPage (PageModel.mk [] [crossOriginSheet] (fun _ => Except.ok []))
      = Except.error ("ReferenceError: str is not defined".toList) :=
  ⟨rfl, rfl, rfl⟩

/-- C4 (behavior of the code at the claim's input): a kept rule from a sheet
with a URL is tagged with that URL, but a kept rule from an inline sheet
(`href` null) is tagged with Python `None` — not the sentinel `"inline"`,
because the JS loop always stores an `href` key, so the `dict.get` default
never applies. -/
theorem c4_inline_sheet_source_is_null_not_inline :
    colorRules [SheetRec.ok (some ("https://animate-ui.com/app.css".toList))
        ["color: red".toList]]
      = [ColorRule.mk (PyVal.pystr ("https://animate-ui.com/app.css".toList))
          ("color: red".toList)] ∧
    stylesheetScan [SheetSrc.mk Option.none (Except.ok ["color: red".toList])]
      = Except.ok [SheetRec.ok Option.none ["color: red".toList]] ∧
    colorRules [SheetRec.ok Option.none ["color: red".toList]]
      = [ColorRule.mk PyVal.pynone ("color: red".toList)] ∧
    PyVal.pynone ≠ PyVal.pystr ("inline".toList) := by
  refine ⟨by decide, rfl, by decide, by decide⟩

/-! ## Custom-property claim -/

/-- C5: on an enumeration consisting of the page's custom properties, the
`cssVariables` mapping is exactly the keyword-filtered enumeration — the
properties whose name contains `color`, `theme` or `hue` as a case-sensitive
substring, each mapped to its trimmed value — and every other property is
excluded. -/
theorem c5_css_variables_keyword_filter (props : List StyleProp)
    (hcustom : ∀ p ∈ props, strStartsWith ("--".toList) p.name = true) :
    cssVariables props
      = (props.filter (fun p => cssNameHasThemeKeyword p.name)).map
          (fun p => (p.name, trimStr p.value)) := by
  unfold cssVariables
  congr 1
  apply List.filter_congr
  intro p hp
  simp only [cssVarNameKeep, hcustom p hp, Bool.true_and]

theorem c5_witness :
    (∀ p ∈ propsSample, strStartsWith ("--".toList) p.name = true) ∧
    cssVariables propsSample
      = (propsSample.filter (fun p => cssNameHasThemeKeyword p.name)).map
          (fun p => (p.name, trimStr p.value)) := by
  have hp : ∀ p ∈ propsSample, strStartsWith ("--".toList) p.name = true := by decide
  exact ⟨hp, c5_css_variables_keyword_filter propsSample hp⟩

/-! ## Run-level claims -/

/-- C7: if navigation fails, or any extraction step raises, the JSON output
file is never created (so no partial JSON either), the error screenshot is
attempted (any secondary failure of that attempt is swallowed), nothing
propagates out of the run, and navigation is attempted exactly once. -/
theorem c7_early_failure_no_json (env : RunEnv)
    (h : env.gotoRes.isOk = false ∨ (extractColorsFromPage env.page).isOk = false) :
    (runMain env).jsonCreated = false ∧
    (runMain env).jsonComplete = false ∧
    (runMain env).errShotAttempted = true ∧
    (runMain env).uncaught = Option.none ∧
    (runMain env).gotoAttempts = 1 := by
  cases hg : env.gotoRes with
  | error e => simp [runMain, tryBody, hg]
  | ok u =>
    cases hx : extractColorsFromPage env.page with
    | error e => simp [runMain, tryBody, hg, hx]
    | ok info =>
      rw [hg, hx] at h
      simp [Except.isOk, Except.toBool] at h

theorem c7_witness :
    (envGotoFails.gotoRes.isOk = false ∨
      (extractColorsFromPage envGotoFails.page).isOk = false) ∧
    ((runMain envGotoFails).jsonCreated = false ∧
     (runMain envGotoFails).jsonComplete = false ∧
     (runMain envGotoFails).errShotAttempted = true ∧
     (runMain envGotoFails).uncaught = Option.none ∧
     (runMain envGotoFails).gotoAttempts = 1) := by
  have hp : envGotoFails.gotoRes.isOk = false ∨
      (extractColorsFromPage envGotoFails.page).isOk = false := Or.inl rfl
  exact ⟨hp, c7_early_failure_no_json envGotoFails hp⟩

/-- C8: whatever the outcome of every fallible step — success, a navigation
or extraction failure, or a failure of the fallback error screenshot — the
`finally` clause closes the launched browser exactly once before the run
ends. -/
theorem c8_browser_closed_exactly_once (env : RunEnv) :
    (runMain env).browserCloses = 1 := by
  cases h : (tryBody env).exc <;> simp [runMain, h]

/-- C10: the top-level handler also covers the steps after extraction — the
JSON write, the console summary and the success screenshot.  When every step
through `json.dump` succeeds and a later step raises, the error is logged and
the error screenshot attempted even though `animate_ui_colors.json` has
already been fully written, so one run can leave both the JSON file and
`animate_ui_error.png` behind; nothing propagates. -/
theorem c10_late_failure_leaves_both_artifacts (env : RunEnv)
    (hg : env.gotoRes.isOk = true)
    (hx : (extractColorsFromPage env.page).isOk = true)
    (ho : env.openRes.isOk = true)
    (hd : env.dumpRes.isOk = true)
    (hlate : env.summaryRes.isOk = false ∨ env.shotRes.isOk = false)
    (he : env.errShotRes.isOk = true) :
    (runMain env).jsonCreated = true ∧
    (runMain env).jsonComplete = true ∧
    (runMain env).errorLogged = true ∧
    (runMain env).errShotAttempted = true ∧
    (runMain env).errShotSaved = true ∧
    (runMain env).uncaught = Option.none := by
  cases hgr : env.gotoRes with
  | error e => rw [hgr] at hg; simp [Except.isOk, Except.toBool] at hg
  | ok u =>
  cases hxr : extractColorsFromPage env.page with
  | error e => rw [hxr] at hx; simp [Except.isOk, Except.toBool] at hx
  | ok info =>
  cases hor : env.openRes with
  | error e => rw [hor] at ho; simp [Except.isOk, Except.toBool] at ho
  | ok u2 =>
  cases hdr : env.dumpRes with
  | error e => rw [hdr] at hd; simp [Except.isOk, Except.toBool] at hd
  | ok u3 =>
  cases her : env.errShotRes with
  | error e => rw [her] at he; simp [Except.isOk, Except.toBool] at he
  | ok u4 =>
  cases hsr : env.summaryRes with
  | error e => simp [runMain, tryBody, hgr, hxr, hor, hdr, hsr, her]
  | ok u5 =>
    cases hshr : env.shotRes with
    | error e => simp [runMain, tryBody, hgr, hxr, hor, hdr, hsr, hshr, her]
    | ok u6 =>
      rw [hsr, hshr] at hlate
      simp [Except.isOk, Except.toBool] at hlate

theorem c10_witness :
    (envShotFails.gotoRes.isOk = true ∧
     (extractColorsFromPage envShotFails.page).isOk = true ∧
     envShotFails.openRes.isOk = true ∧
     envShotFails.dumpRes.isOk = true ∧
     (envShotFails.summaryRes.isOk = false ∨ envShotFails.shotRes.isOk = false) ∧
     envShotFails.errShotRes.isOk = true) ∧
    ((runMain envShotFails).jsonCreated = true ∧
     (runMain envShotFails).jsonComplete = true ∧
     (runMain envShotFails).errorLogged = true ∧
     (runMain envShotFails).errShotAttempted = true ∧
     (runMain envShotFails).errShotSaved = true ∧
     (runMain envShotFails).uncaught = Option.none) := by
  refine ⟨⟨rfl, rfl, rfl, rfl, Or.inr rfl, rfl⟩, ?_⟩
  exact c10_late_failure_leaves_both_artifacts envShotFails rfl rfl rfl rfl (Or.inr rfl) rfl

/-! ## JSON string escaping round trip -/

/-- A scalar value is never in the UTF-16 surrogate gap, and is below
`0x110000`. -/
theorem char_valid_nat (c : Char) :
    c.toNat < 0xD800 ∨ (0xDFFF < c.toNat ∧ c.toNat < 0x110000) := by
  rcases c.valid with h | ⟨h1, h2⟩
  · exact Or.inl h
  · exact Or.inr ⟨h1, h2⟩

theorem hexVal_hexDigit : ∀ n, n < 16 → hexVal (hexDigit n) = some n := by decide

theorem parseHex4_hex4 (n : Nat) (h : n < 0x10000) (k : Str) :
    parseHex4 (hex4 n ++ k) = some (n, k) := by
  have h1 := hexVal_hexDigit (n / 4096 % 16) (Nat.mod_lt _ (by norm_num))
  have h2 := hexVal_hexDigit (n / 256 % 16) (Nat.mod_lt _ (by norm_num))
  have h3 := hexVal_hexDigit (n / 16 % 16) (Nat.mod_lt _ (by norm_num))
  have h4 := hexVal_hexDigit (n % 16) (Nat.mod_lt _ (by norm_num))
  simp only [hex4, List.cons_append, List.nil_append, parseHex4, h1, h2, h3, h4]
  have heq : 4096 * (n / 4096 % 16) + 256 * (n / 256 % 16) + 16 * (n / 16 % 16) + n % 16
      = n := by omega
  rw [heq]

/-- Decoding one escaped character consumes exactly the escape and yields the
character back. -/
theorem parseStringBody_escChar (c : Char) (k : Str) (fuel : Nat) :
    parseStringBody (fuel + 1) (escChar c ++ k)
      = Option.map (fun p => (c :: p.1, p.2)) (parseStringBody fuel k) := by
  have hv := char_valid_nat c
  by_cases h1 : c = '"'
  · subst h1; cases hk : parseStringBody fuel k <;>
      simp [escChar, parseStringBody, parseEscape, hk]
  by_cases h2 : c = '\\'
  · subst h2; cases hk : parseStringBody fuel k <;>
      simp [escChar, parseStringBody, parseEscape, hk]
  by_cases h3 : c = '\n'
  · subst h3; cases hk : parseStringBody fuel k <;>
      simp [escChar, parseStringBody, parseEscape, hk]
  by_cases h4 : c = '\r'
  · subst h4; cases hk : parseStringBody fuel k <;>
      simp [escChar, parseStringBody, parseEscape, hk]
  by_cases h5 : c = '\t'
  · subst h5; cases hk : parseStringBody fuel k <;>
      simp [escChar, parseStringBody, parseEscape, hk]
  by_cases h6 : c = '\x08'
  · subst h6; cases hk : parseStringBody fuel k <;>
      simp [escChar, parseStringBody, parseEscape, hk]
  by_cases h7 : c = '\x0c'
  · subst h7; cases hk : parseStringBody fuel k <;>
      simp [escChar, parseStringBody, parseEscape, hk]
  rw [escChar, if_neg h1, if_neg h2, if_neg h3, if_neg h4, if_neg h5, if_neg h6, if_neg h7]
  by_cases h8 : c.toNat < 0x20 ∨ 0x7E < c.toNat
  · rw [if_pos h8]
    by_cases hbig : c.toNat < 0x10000
    · rw [if_pos hbig]
      have hn1 : ¬(0xD800 ≤ c.toNat ∧ c.toNat ≤ 0xDBFF) := by omega
      have hn2 : ¬(0xDC00 ≤ c.toNat ∧ c.toNat ≤ 0xDFFF) := by omega
      have hp := parseHex4_hex4 c.toNat hbig k
      simp only [List.cons_append]
      rw [parseStringBody]
      simp [parseEscape, hp, hn1, hn2]
      cases hk : parseStringBody fuel k <;> simp [hk]
    · rw [if_neg hbig]
      have hlt : c.toNat < 0x110000 := by omega
      have hge : 0x10000 ≤ c.toNat := by omega
      have hhi : 0xD800 ≤ 0xD800 + (c.toNat - 0x10000) / 0x400 ∧
          0xD800 + (c.toNat - 0x10000) / 0x400 ≤ 0xDBFF := by omega
      have hlo : 0xDC00 ≤ 0xDC00 + (c.toNat - 0x10000) % 0x400 ∧
          0xDC00 + (c.toNat - 0x10000) % 0x400 ≤ 0xDFFF := by omega
      have hp1 := parseHex4_hex4 (0xD800 + (c.toNat - 0x10000) / 0x400) (by omega)
      have hp2 := parseHex4_hex4 (0xDC00 + (c.toNat - 0x10000) % 0x400) (by omega)
      simp only [List.cons_append, List.append_assoc, List.nil_append]
      rw [parseStringBody]
      simp
      rw [parseEscape]
      simp [hp1, hp2, hhi, hlo]
      have hc : Char.ofNat (65536 + (c.toNat - 65536) / 1024 * 1024 +
          (c.toNat - 65536) % 1024) = c := by
        rw [show 65536 + (c.toNat - 65536) / 1024 * 1024 + (c.toNat - 65536) % 1024
              = c.toNat from by omega,
            Char.ofNat_toNat]
      cases hk : parseStringBody fuel k <;> simp [hk, hc]
  · rw [if_neg h8]
    simp only [List.cons_append, List.nil_append]
    rw [parseStringBody]
    rw [if_neg h1, if_neg h2, if_neg (by omega)]
    cases hk : parseStringBody fuel k <;> simp [hk]

/-- Decoding an escaped string consumes it up to the closing quote. -/
theorem parseStringBody_escString (s : Str) (rest : Str) (fuel : Nat)
    (h : s.length < fuel) :
    parseStringBody fuel (escString s ++ ('"' :: rest)) = some (s, rest) := by
  induction s generalizing fuel with
  | nil =>
    cases fuel with
    | zero => omega
    | succ f => simp [escString, parseStringBody]
  | cons c cs ih =>
    cases fuel with
    | zero => omega
    | succ f =>
      have hsplit : escString (c :: cs) ++ ('"' :: rest)
          = escChar c ++ (escString cs ++ ('"' :: rest)) := by
        simp [escString]
      rw [hsplit, parseStringBody_escChar]
      rw [ih f (by simpa using Nat.lt_of_succ_lt_succ h)]
      rfl

/-! ## Whitespace and token-head lemmas -/

theorem skipWs_append_ws (a b : Str) (h : ∀ c ∈ a, isJsonWs c = true) :
    skipWs (a ++ b) = skipWs b := by
  induction a with
  | nil => rfl
  | cons c t ih =>
    have hc := h c (List.mem_cons_self c t)
    simp only [List.cons_append, skipWs, hc, if_true]
    exact ih (fun d hd => h d (List.mem_cons_of_mem _ hd))

theorem skipWs_cons_not_ws (c : Char) (t : Str) (h : isJsonWs c = false) :
    skipWs (c :: t) = c :: t := by
  simp [skipWs, h]

theorem spacesN_all_ws (n : Nat) : ∀ c ∈ spacesN n, isJsonWs c = true := by
  intro c hc
  have := List.eq_of_mem_replicate hc
  subst this
  rfl

/-- Every rendered value starts with one of the four value-opening tokens. -/
theorem renderVal_head (ind : Nat) (v : JVal) :
    ∃ t, renderVal ind v = 'n' :: t ∨ renderVal ind v = '"' :: t ∨
         renderVal ind v = '[' :: t ∨ renderVal ind v = '\x7b' :: t := by
  cases v with
  | jnull => exact ⟨_, Or.inl rfl⟩
  | jstr s => exact ⟨_, Or.inr (Or.inl rfl)⟩
  | jarr a =>
    cases a with
    | anil => exact ⟨_, Or.inr (Or.inr (Or.inl rfl))⟩
    | acons v t => exact ⟨_, Or.inr (Or.inr (Or.inl rfl))⟩
  | jobj o =>
    cases o with
    | onil => exact ⟨_, Or.inr (Or.inr (Or.inr rfl))⟩
    | ocons k v t => exact ⟨_, Or.inr (Or.inr (Or.inr rfl))⟩

/-- `skipWs` leaves a rendered value alone. -/
theorem skipWs_render_append (ind : Nat) (v : JVal) (rest : Str) :
    skipWs (renderVal ind v ++ rest) = renderVal ind v ++ rest := by
  obtain ⟨t, h⟩ := renderVal_head ind v
  rcases h with h | h | h | h <;> rw [h] <;> simp [skipWs, isJsonWs]

theorem skipWs_ws_render (ws : Str) (hws : ∀ c ∈ ws, isJsonWs c = true)
    (ind : Nat) (v : JVal) (rest : Str) :
    skipWs (ws ++ (renderVal ind v ++ rest)) = renderVal ind v ++ rest := by
  rw [skipWs_append_ws ws _ hws, skipWs_render_append]

theorem skipWs_ws_cons (ws : Str) (hws : ∀ c ∈ ws, isJsonWs c = true)
    (c : Char) (t : Str) (hc : isJsonWs c = false) :
    skipWs (ws ++ (c :: t)) = c :: t := by
  rw [skipWs_append_ws ws _ hws, skipWs_cons_not_ws c t hc]

theorem sizeV_pos (v : JVal) : 1 ≤ sizeV v := by
  cases v <;> simp [sizeV]

theorem sizeA_pos (a : JArr) : 1 ≤ sizeA a := by
  cases a <;> simp [sizeA]

theorem sizeO_pos (o : JObj) : 1 ≤ sizeO o := by
  cases o <;> simp [sizeO]

theorem newline_spaces_ws (n : Nat) : ∀ c ∈ ('\n' :: spacesN n), isJsonWs c = true := by
  intro c hc
  rcases List.mem_cons.mp hc with h | h
  · subst h; rfl
  · exact spacesN_all_ws n c h

theorem skipWs_cons_ws (c : Char) (t : Str) (h : isJsonWs c = true) :
    skipWs (c :: t) = skipWs t := by
  simp [skipWs, h]

theorem skipWs_renderString_append (k : Str) (X : Str) :
    skipWs (renderString k ++ X) = renderString k ++ X := by
  simp [renderString, skipWs, isJsonWs]

/-- Parsing inverts rendering: joint statement for values, members and the
two container tails, by induction on the fuel. -/
theorem parse_render_all (fuel : Nat) :
    (∀ v : JVal, ∀ ind : Nat, ∀ ws rest : Str, (∀ c ∈ ws, isJsonWs c = true) →
        sizeV v ≤ fuel →
        parseVal fuel (ws ++ (renderVal ind v ++ rest)) = some (v, rest)) ∧
    (∀ k : Str, ∀ v : JVal, ∀ ind : Nat, ∀ ws rest : Str,
        (∀ c ∈ ws, isJsonWs c = true) → k.length + sizeV v + 2 ≤ fuel →
        parseMember fuel (ws ++ (renderString k ++ (':' :: ' ' :: (renderVal ind v ++ rest))))
          = some ((k, v), rest)) ∧
    (∀ t : JArr, ∀ ind : Nat, ∀ ws rest : Str, (∀ c ∈ ws, isJsonWs c = true) →
        sizeA t ≤ fuel →
        parseArrTail fuel (renderArrTail ind t ++ (ws ++ (']' :: rest))) = some (t, rest)) ∧
    (∀ t : JObj, ∀ ind : Nat, ∀ ws rest : Str, (∀ c ∈ ws, isJsonWs c = true) →
        sizeO t ≤ fuel →
        parseObjTail fuel (renderObjTail ind t ++ (ws ++ ('\x7d' :: rest))) = some (t, rest)) := by
  induction fuel with
  | zero =>
    refine ⟨?_, ?_, ?_, ?_⟩
    · intro v ind ws rest hws hfuel; have := sizeV_pos v; omega
    · intro k v ind ws rest hws hfuel; omega
    · intro t ind ws rest hws hfuel; have := sizeA_pos t; omega
    · intro t ind ws rest hws hfuel; have := sizeO_pos t; omega
  | succ f ih =>
    obtain ⟨ihV, ihM, ihA, ihO⟩ := ih
    refine ⟨?_, ?_, ?_, ?_⟩
    · intro v ind ws rest hws hfuel
      cases v with
      | jnull =>
        rw [parseVal, skipWs_ws_render ws hws ind JVal.jnull rest]
        simp [renderVal]
      | jstr s =>
        rw [parseVal, skipWs_ws_render ws hws ind (JVal.jstr s) rest]
        have hr : renderVal ind (JVal.jstr s) ++ rest
            = '"' :: (escString s ++ ('"' :: rest)) := by
          simp [renderVal, renderString]
        rw [hr]
        have hlen : s.length < f := by
          simp [sizeV] at hfuel; omega
        simp [parseStringBody_escString s rest f hlen]
      | jarr a =>
        cases a with
        | anil =>
          rw [parseVal, skipWs_ws_render ws hws ind (JVal.jarr JArr.anil) rest]
          simp [renderVal, skipWs, isJsonWs, parseArrBody]
        | acons v1 t1 =>
          have := sizeA_pos t1
          have hfv : sizeV v1 ≤ f := by simp [sizeV, sizeA] at hfuel; omega
          have hft : sizeA t1 ≤ f := by simp [sizeV, sizeA] at hfuel; omega
          have hr : renderVal ind (JVal.jarr (JArr.acons v1 t1)) ++ rest
              = '[' :: ('\n' :: (spacesN (ind + 2) ++ (renderVal (ind + 2) v1 ++
                  (renderArrTail (ind + 2) t1 ++
                    (('\n' :: spacesN ind) ++ (']' :: rest)))))) := by
            simp [renderVal, List.cons_append, List.append_assoc]
          rw [parseVal, skipWs_ws_render ws hws ind (JVal.jarr (JArr.acons v1 t1)) rest, hr]
          simp only []
          rw [if_neg (show ¬('[' = 'n') from by decide),
              if_neg (show ¬('[' = '"') from by decide), if_true]
          rw [skipWs_cons_ws '\n' _ rfl,
              skipWs_append_ws (spacesN (ind + 2)) _ (spacesN_all_ws _),
              skipWs_render_append]
          have hv1 : parseVal f (renderVal (ind + 2) v1 ++
              (renderArrTail (ind + 2) t1 ++ (('\n' :: spacesN ind) ++ (']' :: rest))))
              = some (v1, renderArrTail (ind + 2) t1 ++
                  (('\n' :: spacesN ind) ++ (']' :: rest))) := by
            have := ihV v1 (ind + 2) []
              (renderArrTail (ind + 2) t1 ++ (('\n' :: spacesN ind) ++ (']' :: rest)))
              (by intro c hc; cases hc) hfv
            simpa using this
          have hat := ihA t1 (ind + 2) ('\n' :: spacesN ind) rest
            (newline_spaces_ws ind) hft
          obtain ⟨t0, hh⟩ := renderVal_head (ind + 2) v1
          rcases hh with hh | hh | hh | hh <;>
            (rw [hh, List.cons_append, parseArrBody, if_neg (by decide)]
             have hv2 := hv1
             have hat2 := hat
             rw [hh] at hv2
             simp only [List.cons_append] at hv2 hat2 ⊢
             rw [hv2]
             simp only []
             rw [hat2])
      | jobj o =>
        cases o with
        | onil =>
          rw [parseVal, skipWs_ws_render ws hws ind (JVal.jobj JObj.onil) rest]
          simp [renderVal, skipWs, isJsonWs, parseObjBody]
        | ocons k1 v1 t1 =>
          have := sizeO_pos t1
          have hfv : k1.length + sizeV v1 + 2 ≤ f := by
            simp [sizeV, sizeO] at hfuel; omega
          have hft : sizeO t1 ≤ f := by simp [sizeV, sizeO] at hfuel; omega
          have hr : renderVal ind (JVal.jobj (JObj.ocons k1 v1 t1)) ++ rest
              = '\x7b' :: ('\n' :: (spacesN (ind + 2) ++ (renderString k1 ++
                  (':' :: ' ' :: (renderVal (ind + 2) v1 ++
                    (renderObjTail (ind + 2) t1 ++
                      (('\n' :: spacesN ind) ++ ('\x7d' :: rest)))))))) := by
            simp [renderVal, renderString, List.cons_append, List.append_assoc]
          rw [parseVal, skipWs_ws_render ws hws ind (JVal.jobj (JObj.ocons k1 v1 t1)) rest, hr]
          simp only []
          rw [if_neg (show ¬('\x7b' = 'n') from by decide),
              if_neg (show ¬('\x7b' = '"') from by decide),
              if_neg (show ¬('\x7b' = '[') from by decide), if_true]
          rw [skipWs_cons_ws '\n' _ rfl,
              skipWs_append_ws (spacesN (ind + 2)) _ (spacesN_all_ws _),
              skipWs_renderString_append]
          have hmem : parseMember f (renderString k1 ++
              (':' :: ' ' :: (renderVal (ind + 2) v1 ++
                (renderObjTail (ind + 2) t1 ++ (('\n' :: spacesN ind) ++ ('\x7d' :: rest))))))
              = some ((k1, v1), renderObjTail (ind + 2) t1 ++
                  (('\n' :: spacesN ind) ++ ('\x7d' :: rest))) := by
            have := ihM k1 v1 (ind + 2) []
              (renderObjTail (ind + 2) t1 ++ (('\n' :: spacesN ind) ++ ('\x7d' :: rest)))
              (by intro c hc; cases hc) hfv
            simpa using this
          have hot := ihO t1 (ind + 2) ('\n' :: spacesN ind) rest
            (newline_spaces_ws ind) hft
          have hmem2 := hmem
          have hot2 := hot
          rw [show renderString k1 = '"' :: (escString k1 ++ ['"']) from rfl,
              List.cons_append, parseObjBody, if_neg (by decide)]
          rw [show renderString k1 = '"' :: (escString k1 ++ ['"']) from rfl] at hmem2
          simp only [List.cons_append] at hmem2 hot2 ⊢
          rw [hmem2]
          simp only []
          rw [hot2]
    · intro k v ind ws rest hws hfuel
      have := sizeV_pos v
      have hin : ws ++ (renderString k ++ (':' :: ' ' :: (renderVal ind v ++ rest)))
          = ws ++ ('"' :: (escString k ++
              ('"' :: (':' :: ' ' :: (renderVal ind v ++ rest))))) := by
        simp [renderString]
      rw [parseMember, hin, skipWs_ws_cons ws hws '"' _ rfl]
      simp only []
      rw [if_pos (by trivial), parseStringBody_escString k _ f (by omega)]
      simp only []
      rw [skipWs_cons_not_ws ':' _ rfl]
      simp only []
      rw [if_pos (by trivial)]
      have hv := ihV v ind [' '] rest
        (by intro c hc; simp at hc; subst hc; rfl) (by omega)
      rw [show (' ' :: (renderVal ind v ++ rest))
            = [' '] ++ (renderVal ind v ++ rest) from rfl, hv]
    · intro t ind ws rest hws hfuel
      cases t with
      | anil =>
        rw [show renderArrTail ind JArr.anil ++ (ws ++ (']' :: rest))
              = ws ++ (']' :: rest) from by simp [renderArrTail]]
        rw [parseArrTail, skipWs_ws_cons ws hws ']' rest rfl]
        simp only []
        rw [if_neg (show ¬(']' = ',') from by decide), if_true]
      | acons v1 t1 =>
        have hfv : sizeV v1 ≤ f := by simp [sizeA] at hfuel; omega
        have hft : sizeA t1 ≤ f := by simp [sizeA] at hfuel; omega
        have hr : renderArrTail ind (JArr.acons v1 t1) ++ (ws ++ (']' :: rest))
            = ',' :: ('\n' :: (spacesN ind ++ (renderVal ind v1 ++
                (renderArrTail ind t1 ++ (ws ++ (']' :: rest)))))) := by
          simp [renderArrTail, List.cons_append, List.append_assoc]
        rw [hr, parseArrTail, skipWs_cons_not_ws ',' _ rfl]
        simp only []
        rw [if_pos (by trivial)]
        have hv := ihV v1 ind ('\n' :: spacesN ind)
          (renderArrTail ind t1 ++ (ws ++ (']' :: rest))) (newline_spaces_ws ind) hfv
        rw [show ('\n' :: (spacesN ind ++ (renderVal ind v1 ++
              (renderArrTail ind t1 ++ (ws ++ (']' :: rest))))))
              = ('\n' :: spacesN ind) ++ (renderVal ind v1 ++
                (renderArrTail ind t1 ++ (ws ++ (']' :: rest)))) from by simp, hv]
        simp only []
        rw [ihA t1 ind ws rest hws hft]
    · intro t ind ws rest hws hfuel
      cases t with
      | onil =>
        rw [show renderObjTail ind JObj.onil ++ (ws ++ ('\x7d' :: rest))
              = ws ++ ('\x7d' :: rest) from by simp [renderObjTail]]
        rw [parseObjTail, skipWs_ws_cons ws hws '\x7d' rest rfl]
        simp only []
        rw [if_neg (show ¬('\x7d' = ',') from by decide), if_true]
      | ocons k1 v1 t1 =>
        have := sizeO_pos t1
        have hfv : k1.length + sizeV v1 + 2 ≤ f := by simp [sizeO] at hfuel; omega
        have hft : sizeO t1 ≤ f := by simp [sizeO] at hfuel; omega
        have hr : renderObjTail ind (JObj.ocons k1 v1 t1) ++ (ws ++ ('\x7d' :: rest))
            = ',' :: ('\n' :: (spacesN ind ++ (renderString k1 ++
                (':' :: ' ' :: (renderVal ind v1 ++
                  (renderObjTail ind t1 ++ (ws ++ ('\x7d' :: rest)))))))) := by
          simp [renderObjTail, renderString, List.cons_append, List.append_assoc]
        rw [hr, parseObjTail, skipWs_cons_not_ws ',' _ rfl]
        simp only []
        rw [if_pos (by trivial)]
        have hmem : parseMember f (('\n' :: spacesN ind) ++ (renderString k1 ++
            (':' :: ' ' :: (renderVal ind v1 ++
              (renderObjTail ind t1 ++ (ws ++ ('\x7d' :: rest)))))))
            = some ((k1, v1), renderObjTail ind t1 ++ (ws ++ ('\x7d' :: rest))) :=
          ihM k1 v1 ind ('\n' :: spacesN ind)
            (renderObjTail ind t1 ++ (ws ++ ('\x7d' :: rest))) (newline_spaces_ws ind) hfv
        rw [show ('\n' :: (spacesN ind ++ (renderString k1 ++
              (':' :: ' ' :: (renderVal ind v1 ++
                (renderObjTail ind t1 ++ (ws ++ ('\x7d' :: rest))))))))
              = ('\n' :: spacesN ind) ++ (renderString k1 ++
                (':' :: ' ' :: (renderVal ind v1 ++
                  (renderObjTail ind t1 ++ (ws ++ ('\x7d' :: rest)))))) from by simp, hmem]
        simp only []
        rw [ihO t1 ind ws rest hws hft]

/-- Parsing inverts rendering for one value, with any leading whitespace. -/
theorem parseVal_render (v : JVal) (ind : Nat) (ws rest : Str) (fuel : Nat)
    (hws : ∀ c ∈ ws, isJsonWs c = true) (hfuel : sizeV v ≤ fuel) :
    parseVal fuel (ws ++ (renderVal ind v ++ rest)) = some (v, rest) :=
  (parse_render_all fuel).1 v ind ws rest hws hfuel

/-! ## Decoding inverts encoding -/

theorem decodeStrListArr_round (xs : List Str) :
    decodeStrListArr (jarrOfList (xs.map JVal.jstr)) = some xs := by
  induction xs with
  | nil => rfl
  | cons x t ih => simp [jarrOfList, decodeStrListArr, ih]

theorem decodeSource_round (s : PyVal) : decodeSource (encodeSource s) = some s := by
  cases s with
  | pynone => rfl
  | pystr s => rfl
  | pystrList xs => simp [encodeSource, decodeSource, decodeStrListArr_round]

theorem decodeColorRule_round (r : ColorRule) :
    decodeColorRule (encodeColorRule r) = some r := by
  cases r with
  | mk src rule => simp [encodeColorRule, decodeColorRule, decodeSource_round]

theorem decodeColorRules_round (rs : List ColorRule) :
    decodeColorRules (jarrOfList (rs.map encodeColorRule)) = some rs := by
  induction rs with
  | nil => rfl
  | cons r t ih => simp [jarrOfList, decodeColorRules, decodeColorRule_round, ih]

theorem decodeElementColor_round (e : ElementColor) :
    decodeElementColor (encodeElementColor e) = some e := by
  cases e with
  | mk a b c d f g h => simp [encodeElementColor, decodeElementColor]

theorem decodeElementColors_round (es : List ElementColor) :
    decodeElementColors (jarrOfList (es.map encodeElementColor)) = some es := by
  induction es with
  | nil => rfl
  | cons e t ih => simp [jarrOfList, decodeElementColors, decodeElementColor_round, ih]

theorem decodeVars_round (vars : List (Str × Str)) :
    decodeVars (jobjOfList (vars.map (fun kv => (kv.1, JVal.jstr kv.2)))) = some vars := by
  induction vars with
  | nil => rfl
  | cons kv t ih => simp [jobjOfList, decodeVars, ih]

theorem decodeResult_round (c : ColorsInfo) : decodeResult (encodeResult c) = some c := by
  cases c with
  | mk vars rules elems =>
    simp [encodeResult, encodeVars, decodeResult, decodeVars_round,
      decodeColorRules_round, decodeElementColors_round]

/-- C9: the JSON text written to `animate_ui_colors.json` for an extraction
result, parsed back, yields exactly the encoded result with nothing left
over; the parsed value decodes to the original in-memory record (all three
field values identical), and its top-level object carries exactly the keys
`css_variables`, `color_rules`, `element_colors` in order. -/
theorem c9_json_round_trip (c : ColorsInfo) :
    parseVal (sizeV (encodeResult c)) (writtenJson c) = some (encodeResult c, []) ∧
    decodeResult (encodeResult c) = some c ∧
    topLevelKeys (encodeResult c)
      = ["css_variables".toList, "color_rules".toList, "element_colors".toList] := by
  refine ⟨?_, decodeResult_round c, rfl⟩
  have := parseVal_render (encodeResult c) 0 [] [] (sizeV (encodeResult c))
    (by intro x hx; cases hx) (Nat.le_refl _)
  simpa [writtenJson] using this
